import Mathlib

/-!
Verification of the ddns-service IP-reconciliation core.

Shallow embedding of the Go sources:
- `time.Time` values are modelled as whole seconds since the zero time
  (`Time := Nat`); `Truncate(time.Hour)` becomes truncation to a multiple
  of 3600 seconds, and `time.Duration` results are expressed in seconds.
- Effectful collaborators (DynamoDB repository, Route53 client, HTTP
  authorities) are modelled by explicit outcome oracles passed in as data,
  and the calls a handler issues are collected in an explicit trace.
-/

set_option maxRecDepth 4000

namespace DDNS

/-- Seconds since the zero time. -/
abbrev Time := Nat

def secondsPerHour : Nat := 3600

/-- Go `t.Truncate(time.Hour)`: round down to a multiple of one hour. -/
def truncHour (t : Time) : Time := t / secondsPerHour * secondsPerHour

namespace domain

/-- Go `domain.IPMapping` (internal/domain/mapping.go). -/
structure IPMapping where
  OwnerID : String
  LocationName : String
  IP : String
  Subdomain : String
  UpdatedAt : Time
  LastIPChangeAt : Time
  HourlyChangeCount : Int
  deriving Repr, DecidableEq

/-- Go `domain.UpdateRequest`: the parsed JSON body of an update request. -/
structure UpdateRequest where
  OwnerID : String
  Location : String
  IP : String
  deriving Repr, DecidableEq

/-- Go `UpdateRequest.Validate`: returns the error message, if any. -/
def UpdateRequest.Validate (r : UpdateRequest) : Option String :=
  if r.OwnerID = "" then some "ownerId is required"
  else if r.Location = "" then some "location is required"
  else none

end domain

namespace ratelimit

/-- Go `ratelimit.MaxChangesPerHour`. -/
def MaxChangesPerHour : Int := 2

/-- Go `ratelimit.CheckResult`; `RetryAfter` is in seconds. -/
structure CheckResult where
  Allowed : Bool
  RetryAfter : Nat
  deriving Repr, DecidableEq

/-- Go `ratelimit.Check`: decides whether an IP change is allowed now. -/
def Check (mapping : Option domain.IPMapping) (now : Time) : CheckResult :=
  match mapping with
  | none => { Allowed := true, RetryAfter := 0 }
  | some m =>
    let currentHour := truncHour now
    let lastChangeHour := truncHour m.LastIPChangeAt
    if lastChangeHour ≠ currentHour then
      { Allowed := true, RetryAfter := 0 }
    else if m.HourlyChangeCount ≥ MaxChangesPerHour then
      let nextHour := currentHour + secondsPerHour
      { Allowed := false, RetryAfter := nextHour - now }
    else
      { Allowed := true, RetryAfter := 0 }

/-- Go `ratelimit.UpdateCounters`: bump the hourly counter after an
accepted IP change (pointer mutation modelled as returning the new
mapping). -/
def UpdateCounters (m : domain.IPMapping) (now : Time) : domain.IPMapping :=
  let currentHour := truncHour now
  let lastChangeHour := truncHour m.LastIPChangeAt
  let m' :=
    if lastChangeHour ≠ currentHour then
      { m with HourlyChangeCount := 1 }
    else
      { m with HourlyChangeCount := m.HourlyChangeCount + 1 }
  { m' with LastIPChangeAt := now }

end ratelimit

namespace md5

/-!
MD5 (RFC 1321), as used by `crypto/md5` via `dns.GenerateSubdomain`.
Bytes and 32-bit words are plain `Nat`s kept below their bound; all
arithmetic is explicit modulo 2^32.
-/

def mod32 : Nat := 4294967296

def mask32 : Nat := 4294967295

/-- Bitwise combine the low `k` bits of `x` and `y` with `f`. -/
def bitwiseFix (f : Bool → Bool → Bool) : Nat → Nat → Nat → Nat
  | 0, _, _ => 0
  | k + 1, x, y =>
    (cond (f (x % 2 == 1) (y % 2 == 1)) 1 0) + 2 * bitwiseFix f k (x / 2) (y / 2)

def and32 (x y : Nat) : Nat := bitwiseFix (fun a b => a && b) 32 x y

def or32 (x y : Nat) : Nat := bitwiseFix (fun a b => a || b) 32 x y

def xor32 (x y : Nat) : Nat := bitwiseFix (fun a b => a != b) 32 x y

def not32 (x : Nat) : Nat := mask32 - x % mod32

def add32 (x y : Nat) : Nat := (x + y) % mod32

/-- Rotate the 32-bit word `x` left by `s` bits (`0 ≤ s < 32`). -/
def rotl32 (x s : Nat) : Nat := (x % mod32) * 2 ^ s % mod32 + x % mod32 / 2 ^ (32 - s)

/-- The 64 sine-derived round constants. -/
def kTable : List Nat :=
  [0xd76aa478, 0xe8c7b756, 0x242070db, 0xc1bdceee,
   0xf57c0faf, 0x4787c62a, 0xa8304613, 0xfd469501,
   0x698098d8, 0x8b44f7af, 0xffff5bb1, 0x895cd7be,
   0x6b901122, 0xfd987193, 0xa679438e, 0x49b40821,
   0xf61e2562, 0xc040b340, 0x265e5a51, 0xe9b6c7aa,
   0xd62f105d, 0x02441453, 0xd8a1e681, 0xe7d3fbc8,
   0x21e1cde6, 0xc33707d6, 0xf4d50d87, 0x455a14ed,
   0xa9e3e905, 0xfcefa3f8, 0x676f02d9, 0x8d2a4c8a,
   0xfffa3942, 0x8771f681, 0x6d9d6122, 0xfde5380c,
   0xa4beea44, 0x4bdecfa9, 0xf6bb4b60, 0xbebfbc70,
   0x289b7ec6, 0xeaa127fa, 0xd4ef3085, 0x04881d05,
   0xd9d4d039, 0xe6db99e5, 0x1fa27cf8, 0xc4ac5665,
   0xf4292244, 0x432aff97, 0xab9423a7, 0xfc93a039,
   0x655b59c3, 0x8f0ccc92, 0xffeff47d, 0x85845dd1,
   0x6fa87e4f, 0xfe2ce6e0, 0xa3014314, 0x4e0811a1,
   0xf7537e82, 0xbd3af235, 0x2ad7d2bb, 0xeb86d391]

/-- The per-round left-rotation amounts. -/
def sTable : List Nat :=
  [7, 12, 17, 22, 7, 12, 17, 22, 7, 12, 17, 22, 7, 12, 17, 22,
   5, 9, 14, 20, 5, 9, 14, 20, 5, 9, 14, 20, 5, 9, 14, 20,
   4, 11, 16, 23, 4, 11, 16, 23, 4, 11, 16, 23, 4, 11, 16, 23,
   6, 10, 15, 21, 6, 10, 15, 21, 6, 10, 15, 21, 6, 10, 15, 21]

/-- One MD5 round step; `M g` is the g-th little-endian message word. -/
def md5Step (M : Nat → Nat) (st : Nat × Nat × Nat × Nat) (i : Nat) :
    Nat × Nat × Nat × Nat :=
  let a := st.1
  let b := st.2.1
  let c := st.2.2.1
  let d := st.2.2.2
  let fg : Nat × Nat :=
    if i < 16 then (or32 (and32 b c) (and32 (not32 b) d), i)
    else if i < 32 then (or32 (and32 d b) (and32 (not32 d) c), (5 * i + 1) % 16)
    else if i < 48 then (xor32 b (xor32 c d), (3 * i + 5) % 16)
    else (xor32 c (or32 b (not32 d)), 7 * i % 16)
  let t := add32 (add32 (add32 fg.1 a) (kTable.getD i 0)) (M fg.2)
  (d, add32 b (rotl32 t (sTable.getD i 0)), b, c)

/-- The little-endian 32-bit word starting at byte `4*i` of a block. -/
def wordAt (block : List Nat) (i : Nat) : Nat :=
  block.getD (4 * i) 0 + 256 * block.getD (4 * i + 1) 0 +
    65536 * block.getD (4 * i + 2) 0 + 16777216 * block.getD (4 * i + 3) 0

/-- Compress one 64-byte block into the running state. -/
def processBlock (block : List Nat) (st : Nat × Nat × Nat × Nat) :
    Nat × Nat × Nat × Nat :=
  let M := fun g => wordAt block g
  let r := (List.range 64).foldl (md5Step M) st
  (add32 st.1 r.1, add32 st.2.1 r.2.1, add32 st.2.2.1 r.2.2.1,
    add32 st.2.2.2 r.2.2.2)

/-- Fold over successive 64-byte blocks; `fuel` is the block count. -/
def processBlocks (fuel : Nat) (bs : List Nat) (st : Nat × Nat × Nat × Nat) :
    Nat × Nat × Nat × Nat :=
  match fuel with
  | 0 => st
  | k + 1 => processBlocks k (bs.drop 64) (processBlock (bs.take 64) st)

/-- MD5 padding: 0x80, zeros to 56 mod 64, then the 64-bit LE bit length. -/
def padMessage (msg : List Nat) : List Nat :=
  let len := msg.length
  let bitLen := len * 8
  let zeros := (119 - len % 64) % 64
  msg ++ 128 :: List.replicate zeros 0 ++
    [bitLen % 256, bitLen / 256 % 256, bitLen / 65536 % 256,
     bitLen / 16777216 % 256, bitLen / 4294967296 % 256,
     bitLen / 1099511627776 % 256, bitLen / 281474976710656 % 256,
     bitLen / 72057594037927936 % 256]

/-- Run MD5 over a byte list, producing the four state words. -/
def md5Words (msg : List Nat) : Nat × Nat × Nat × Nat :=
  let padded := padMessage msg
  processBlocks (padded.length / 64) padded
    (0x67452301, 0xefcdab89, 0x98badcfe, 0x10325476)

def hexDigit (n : Nat) : Char :=
  if n < 10 then Char.ofNat (48 + n) else Char.ofNat (87 + n)

def byteHexChars (b : Nat) : List Char := [hexDigit (b / 16), hexDigit (b % 16)]

/-- Lowercase hex of one 32-bit word, in little-endian byte order. -/
def wordHexLE (w : Nat) : List Char :=
  byteHexChars (w % 256) ++ byteHexChars (w / 256 % 256) ++
    byteHexChars (w / 65536 % 256) ++ byteHexChars (w / 16777216 % 256)

/-- The 32 lowercase hex characters of the MD5 digest of `msg`. -/
def digestHexChars (msg : List Nat) : List Char :=
  let r := md5Words msg
  wordHexLE r.1 ++ wordHexLE r.2.1 ++ wordHexLE r.2.2.1 ++ wordHexLE r.2.2.2

/-- UTF-8 encoding of a character, as Go's `[]byte(string)` produces. -/
def utf8Bytes (c : Char) : List Nat :=
  let n := c.toNat
  if n < 128 then [n]
  else if n < 2048 then [192 + n / 64, 128 + n % 64]
  else if n < 65536 then [224 + n / 4096, 128 + n / 64 % 64, 128 + n % 64]
  else [240 + n / 262144, 128 + n / 4096 % 64, 128 + n / 64 % 64, 128 + n % 64]

def strBytes (s : String) : List Nat :=
  s.data.foldr (fun c acc => utf8Bytes c ++ acc) []

/-- The full 32-character lowercase hex MD5 digest of a string, Go's
`fmt.Sprintf("%x", md5.Sum([]byte(s)))`. -/
def md5Hex (s : String) : String := String.mk (digestHexChars (strBytes s))

end md5

namespace dns

/-- Go `dns.SubdomainLength`. -/
def SubdomainLength : Nat := 8

/-- Go `dns.RootDomain`. -/
def RootDomain : String := "grocky.net"

/-- Go `dns.GenerateSubdomain`: the first 8 characters of the lowercase
hex MD5 digest of "ownerId-location". -/
def GenerateSubdomain (ownerID location : String) : String :=
  String.mk ((md5.digestHexChars (md5.strBytes (ownerID ++ "-" ++ location))).take
    SubdomainLength)

/-- Go `dns.FormatFQDN`: append the fixed root domain. -/
def FormatFQDN (subdomain : String) : String :=
  subdomain ++ "." ++ RootDomain

end dns

namespace response

/-- Go `response.RequestError`; `RetryAfter` is in whole seconds. -/
structure RequestError where
  Status : Nat
  Description : String
  RetryAfter : Nat
  deriving Repr, DecidableEq

/-- Go `response.MappingBody`; `UpdatedAt` keeps the timestamp itself
rather than its RFC3339 rendering. -/
structure MappingBody where
  OwnerID : String
  Location : String
  IP : String
  Subdomain : String
  Changed : Bool
  UpdatedAt : Time
  deriving Repr, DecidableEq

end response

namespace handlers

/-- ASCII whitespace, as trimmed by Go's `strings.TrimSpace` (the header
and IP strings involved are ASCII). -/
def isSpaceChar (c : Char) : Bool :=
  (9 ≤ c.toNat && c.toNat ≤ 13) || c.toNat == 32

def trimChars (cs : List Char) : List Char :=
  ((cs.dropWhile isSpaceChar).reverse.dropWhile isSpaceChar).reverse

/-- Go `strings.TrimSpace`. -/
def TrimSpace (s : String) : String := String.mk (trimChars s.data)

/-- The first entry of `strings.Split(s, ",")`: everything before the
first comma. -/
def firstCommaSegment : List Char → List Char
  | [] => []
  | c :: rest => if c = ',' then [] else c :: firstCommaSegment rest

/-- Go `extractClientIP`: first X-Forwarded-For entry (either header
case), trimmed; else the request context source IP; else empty. -/
def extractClientIP (hXFF hxff sourceIP : String) : String :=
  let xff := if hXFF = "" then hxff else hXFF
  if xff ≠ "" then TrimSpace (String.mk (firstCommaSegment xff.data))
  else if sourceIP ≠ "" then sourceIP
  else ""

/-- Outcome of `repo.Get`: a non-NotFound error, NotFound, or a mapping. -/
inductive GetResult where
  | err
  | notFound
  | found (m : domain.IPMapping)
  deriving Repr, DecidableEq

/-- The inputs the Update handler consumes: the parsed body (`none` when
the JSON does not parse), the transport metadata, and one outcome oracle
per external collaborator. -/
structure UpdateEnv where
  body : Option domain.UpdateRequest
  hXFF : String
  hxff : String
  sourceIP : String
  authOk : Bool
  getResult : GetResult
  dnsOk : Bool
  putOk : Bool
  deriving Repr, DecidableEq

/-- The side-effecting calls the Update handler issued: DNS upserts
(subdomain, ip), repository put calls, and whether the rate limiter's
`Check` and `UpdateCounters` were reached. -/
structure Effects where
  dnsUpserts : List (String × String)
  puts : List domain.IPMapping
  rateChecked : Bool
  countersUpdated : Bool
  deriving Repr, DecidableEq

def noEffects : Effects :=
  { dnsUpserts := [], puts := [], rateChecked := false, countersUpdated := false }

/-- Go `handlers.Update` (internal/handlers/update.go), with the call
results supplied by `env` and the issued calls returned as `Effects`.
The authentication collaborator is abstracted to its success bit; its
error body is summarized as a 401. -/
def Update (env : UpdateEnv) (now : Time) :
    (Except response.RequestError response.MappingBody) × Effects :=
  match env.body with
  | none =>
    (.error ⟨400, "invalid request body", 0⟩, noEffects)
  | some req =>
    match req.Validate with
    | some msg =>
      (.error ⟨400, msg, 0⟩, noEffects)
    | none =>
      if !env.authOk then
        (.error ⟨401, "unauthorized", 0⟩, noEffects)
      else
        let ip := extractClientIP env.hXFF env.hxff env.sourceIP
        if ip = "" then
          (.error ⟨400, "could not determine client IP", 0⟩, noEffects)
        else
          match env.getResult with
          | .err =>
            (.error ⟨500, "failed to get mapping", 0⟩, noEffects)
          | gr =>
            let existing : Option domain.IPMapping :=
              match gr with
              | .found m => some m
              | _ => none
            let isNew := existing.isNone
            let ipChanged : Bool :=
              match existing with
              | none => true
              | some m => m.IP != ip
            let subdomain :=
              match existing with
              | some m =>
                if m.Subdomain != "" then m.Subdomain
                else dns.GenerateSubdomain req.OwnerID req.Location
              | none => dns.GenerateSubdomain req.OwnerID req.Location
            let fullSubdomain := dns.FormatFQDN subdomain
            if ipChanged then
              let rl := ratelimit.Check existing now
              if !rl.Allowed then
                (.error ⟨429, "rate limit exceeded: maximum 2 IP changes per hour", rl.RetryAfter⟩,
                  ⟨[], [], true, false⟩)
              else if !env.dnsOk then
                (.error ⟨500, "failed to update DNS record", 0⟩,
                  ⟨[(subdomain, ip)], [], true, false⟩)
              else
                let mapping0 : domain.IPMapping :=
                  match existing with
                  | some m => m
                  | none => ⟨req.OwnerID, req.Location, "", subdomain, 0, 0, 0⟩
                let mapping1 := { mapping0 with IP := ip, UpdatedAt := now }
                let mapping2 :=
                  if isNew then { mapping1 with Subdomain := subdomain } else mapping1
                let mapping3 := ratelimit.UpdateCounters mapping2 now
                if !env.putOk then
                  (.error ⟨500, "failed to save mapping", 0⟩,
                    ⟨[(subdomain, ip)], [mapping3], true, true⟩)
                else
                  (.ok ⟨mapping3.OwnerID, mapping3.LocationName, mapping3.IP, fullSubdomain, true, mapping3.UpdatedAt⟩,
                    ⟨[(subdomain, ip)], [mapping3], true, true⟩)
            else
              match existing with
              | some m =>
                (.ok ⟨m.OwnerID, m.LocationName, m.IP, fullSubdomain, false, m.UpdatedAt⟩,
                  noEffects)
              | none =>
                -- unreachable: ipChanged is true whenever existing is none
                (.error ⟨500, "unreachable", 0⟩, noEffects)

/-- Per-request inputs for iterating Update against an evolving store. -/
structure StepInput where
  hXFF : String
  hxff : String
  sourceIP : String
  authOk : Bool
  dnsOk : Bool
  putOk : Bool
  now : Time
  deriving Repr, DecidableEq

/-- One Update request against a store currently holding `m`; the store
afterwards holds the put value exactly when the handler succeeded. -/
def runUpdate (req : domain.UpdateRequest) (m : domain.IPMapping) (s : StepInput) :
    domain.IPMapping :=
  let env : UpdateEnv :=
    { body := some req, hXFF := s.hXFF, hxff := s.hxff, sourceIP := s.sourceIP,
      authOk := s.authOk, getResult := .found m, dnsOk := s.dnsOk, putOk := s.putOk }
  match Update env s.now with
  | (.ok _, eff) =>
    match eff.puts with
    | [p] => p
    | _ => m
  | (.error _, _) => m

/-- Iterate `runUpdate` over a sequence of requests. -/
def runUpdates (req : domain.UpdateRequest) (m : domain.IPMapping) :
    List StepInput → domain.IPMapping
  | [] => m
  | s :: rest => runUpdates req (runUpdate req m s) rest

end handlers

namespace pubip

/-- Go `consensusRequired`. -/
def consensusRequired : Nat := 2

/-- Outcome of one authority's HTTP exchange: a transport error, or a
response with its status code and raw body. -/
inductive HTTPOutcome where
  | transportErr (msg : String)
  | resp (status : Nat) (body : String)
  deriving Repr, DecidableEq

/-- Go `authority.requestExternalIP`: non-200 statuses become errors,
successful bodies are trimmed of surrounding whitespace. -/
def requestExternalIP (url : String) (o : HTTPOutcome) : Except String String :=
  match o with
  | .transportErr msg => .error msg
  | .resp status body =>
    if status ≠ 200 then
      .error ("unexpected status code " ++ toString status ++ " from " ++ url)
    else
      .ok (handlers.TrimSpace body)

/-- The errors `queryWithConsensus` can return: `ErrNoConsensus`, or the
last authority-level error received. -/
inductive PubipError where
  | noConsensus
  | authorityErr (msg : String)
  deriving Repr, DecidableEq

/-- The collection loop of Go `queryWithConsensus`, over the results in
channel-arrival order: `tally` is `ipCounts`, `lastErr` the last error
seen so far.  Returns the first IP whose tally reaches the quorum, else
the final `lastErr`. -/
def collect (tally : String → Nat) (lastErr : Option String) :
    List (Except String String) → Except (Option String) String
  | [] => .error lastErr
  | .error e :: rest => collect tally (some e) rest
  | .ok ip :: rest =>
    let t := fun s => if s = ip then tally s + 1 else tally s
    if consensusRequired ≤ t ip then .ok ip
    else collect t lastErr rest

/-- Go `queryWithConsensus` on the arrival-ordered result list. -/
def queryWithConsensus (results : List (Except String String)) :
    Except PubipError String :=
  match collect (fun _ => 0) none results with
  | .ok ip => .ok ip
  | .error (some e) => .error (.authorityErr e)
  | .error none => .error .noConsensus

/-- Number of successful results equal to `v`. -/
def countOk (v : String) : List (Except String String) → Nat
  | [] => 0
  | .ok w :: rest => (if w = v then 1 else 0) + countOk v rest
  | .error _ :: rest => countOk v rest

/-- The last authority error in the list, starting from `le`. -/
def lastErrorFrom (le : Option String) : List (Except String String) → Option String
  | [] => le
  | .error e :: rest => lastErrorFrom (some e) rest
  | .ok _ :: rest => lastErrorFrom le rest

end pubip

namespace admin

/-- The fields `SubdomainService` reads from the stored item. -/
structure MappingRecord where
  Subdomain : String
  IP : String
  deriving Repr, DecidableEq

/-- Go `admin.ChangeSubdomainInput`. -/
structure ChangeSubdomainInput where
  OwnerID : String
  Location : String
  NewSubdomain : String
  deriving Repr, DecidableEq

/-- Go `admin.ChangeSubdomainOutput`. -/
structure ChangeSubdomainOutput where
  OldSubdomain : String
  NewSubdomain : String
  OldFQDN : String
  NewFQDN : String
  IP : String
  deriving Repr, DecidableEq

/-- One Route53 change batch issued by `updateRoute53`: delete the A
record `deleteName` and create the A record `createName`, both with
record value `ip` (submitted together as one `ChangeBatch`). -/
structure ChangeBatch where
  deleteName : String
  createName : String
  ip : String
  deriving Repr, DecidableEq

/-- Outcomes of the external calls `ChangeSubdomain` can make: the
DynamoDB `GetItem` result (a store error, no item, or the item), the
error of each of the up-to-two `ChangeResourceRecordSets` calls, and the
error of the `UpdateItem` call. -/
structure MigEnv where
  getItem : Except String (Option MappingRecord)
  r53First : Option String
  r53Second : Option String
  dynErr : Option String
  deriving Repr

/-- The calls `ChangeSubdomain` issued: Route53 change batches in order,
and DynamoDB subdomain updates (ownerId, location, newSubdomain). -/
structure MigTrace where
  batches : List ChangeBatch
  dynUpdates : List (String × String × String)
  deriving Repr, DecidableEq

/-- Go `SubdomainService.getMapping`. -/
def getMapping (getItem : Except String (Option MappingRecord))
    (ownerID location : String) : Except String MappingRecord :=
  match getItem with
  | .error e => .error e
  | .ok none =>
    .error ("mapping not found for owner=" ++ ownerID ++ " location=" ++ location)
  | .ok (some r) =>
    if r.IP = "" then .error "mapping has no IP address" else .ok r

/-- The change batch Go `updateRoute53` submits: delete the old FQDN's A
record, create the new FQDN's A record, same IP. -/
def mkBatch (oldSubdomain newSubdomain ip : String) : ChangeBatch :=
  { deleteName := oldSubdomain ++ "." ++ dns.RootDomain,
    createName := newSubdomain ++ "." ++ dns.RootDomain, ip := ip }

/-- Go `SubdomainService.ChangeSubdomain`: phase A updates Route53,
phase B updates DynamoDB; if phase B fails after phase A succeeded, a
compensating reverse batch is issued (its own failure is only logged)
and the store error is surfaced. -/
def ChangeSubdomain (env : MigEnv) (input : ChangeSubdomainInput) :
    Except String ChangeSubdomainOutput × MigTrace :=
  match getMapping env.getItem input.OwnerID input.Location with
  | .error e => (.error ("failed to get mapping: " ++ e), ⟨[], []⟩)
  | .ok mapping =>
    let ip := mapping.IP
    let oldSubdomain :=
      if mapping.Subdomain = "" then
        dns.GenerateSubdomain input.OwnerID input.Location
      else mapping.Subdomain
    let oldFQDN := oldSubdomain ++ "." ++ dns.RootDomain
    let newFQDN := input.NewSubdomain ++ "." ++ dns.RootDomain
    let batch1 := mkBatch oldSubdomain input.NewSubdomain ip
    match env.r53First with
    | some e => (.error ("failed to update Route53: " ++ e), ⟨[batch1], []⟩)
    | none =>
      match env.dynErr with
      | some e =>
        let batch2 := mkBatch input.NewSubdomain oldSubdomain ip
        (.error ("failed to update DynamoDB: " ++ e),
          ⟨[batch1, batch2], [(input.OwnerID, input.Location, input.NewSubdomain)]⟩)
      | none =>
        (.ok ⟨oldSubdomain, input.NewSubdomain, oldFQDN, newFQDN, ip⟩,
          ⟨[batch1], [(input.OwnerID, input.Location, input.NewSubdomain)]⟩)

end admin

/-! ## Theorems -/

/-- C2: `ratelimit.Check` allows a missing mapping, allows any mapping
whose last IP change lies in a different wall-clock hour (truncation to
the hour, so 3599 s vs 3600 s are different hours), allows a same-hour
mapping with fewer than 2 changes, and denies exactly same-hour mappings
with at least 2 changes, with `RetryAfter` the time to the next
wall-clock hour boundary. -/
theorem ratelimit_Check_spec (m : domain.IPMapping) (now : Time) :
    ratelimit.Check none now = ⟨true, 0⟩
    ∧ (truncHour m.LastIPChangeAt ≠ truncHour now →
        ratelimit.Check (some m) now = ⟨true, 0⟩)
    ∧ (truncHour m.LastIPChangeAt = truncHour now → m.HourlyChangeCount < 2 →
        ratelimit.Check (some m) now = ⟨true, 0⟩)
    ∧ ((ratelimit.Check (some m) now).Allowed = false ↔
        (truncHour m.LastIPChangeAt = truncHour now ∧ 2 ≤ m.HourlyChangeCount))
    ∧ ((ratelimit.Check (some m) now).Allowed = false →
        (ratelimit.Check (some m) now).RetryAfter
          = truncHour now + secondsPerHour - now) := by
  refine ⟨rfl, ?_, ?_, ?_, ?_⟩
  · intro h
    simp [ratelimit.Check, h]
  · intro h hc
    have hc' : ¬ (m.HourlyChangeCount ≥ ratelimit.MaxChangesPerHour) := by
      simp [ratelimit.MaxChangesPerHour]; omega
    simp [ratelimit.Check, h, hc']
  · by_cases h : truncHour m.LastIPChangeAt = truncHour now
    · by_cases hc : m.HourlyChangeCount ≥ ratelimit.MaxChangesPerHour
      · simp only [ratelimit.MaxChangesPerHour] at hc
        simp [ratelimit.Check, ratelimit.MaxChangesPerHour, h, hc]
      · simp only [ratelimit.MaxChangesPerHour] at hc
        simp [ratelimit.Check, ratelimit.MaxChangesPerHour, h, hc]
    · simp [ratelimit.Check, h]
  · intro hden
    by_cases h : truncHour m.LastIPChangeAt = truncHour now
    · by_cases hc : m.HourlyChangeCount ≥ ratelimit.MaxChangesPerHour
      · simp [ratelimit.Check, h, hc]
      · simp [ratelimit.Check, h, hc] at hden
    · simp [ratelimit.Check, h] at hden

/-- Witness for C2: a mapping changed at second 3599 (hour 0) with a
large counter is allowed at second 3600 (hour 1); a mapping changed at
second 3601 with counter 2 is denied at second 5400 with 1800 s left to
the next hour boundary. -/
theorem ratelimit_Check_spec_witness :
    ratelimit.Check (some ⟨"o", "l", "1.2.3.4", "s", 3599, 3599, 7⟩) 3600 = ⟨true, 0⟩
    ∧ (ratelimit.Check (some ⟨"o", "l", "1.2.3.4", "s", 3601, 3601, 2⟩) 5400).Allowed
        = false
    ∧ (ratelimit.Check (some ⟨"o", "l", "1.2.3.4", "s", 3601, 3601, 2⟩) 5400).RetryAfter
        = 1800 := by
  have h1 := (ratelimit_Check_spec ⟨"o", "l", "1.2.3.4", "s", 3599, 3599, 7⟩ 3600).2.1
    (by decide)
  have h2 := ratelimit_Check_spec ⟨"o", "l", "1.2.3.4", "s", 3601, 3601, 2⟩ 5400
  have hden : (ratelimit.Check (some ⟨"o", "l", "1.2.3.4", "s", 3601, 3601, 2⟩)
      5400).Allowed = false := h2.2.2.2.1.mpr (by decide)
  have hretry := h2.2.2.2.2 hden
  refine ⟨h1, hden, ?_⟩
  rw [hretry]
  decide

/-- C1: when the candidate IP equals the stored mapping's IP, Update
returns `changed := false` with the stored IP and `UpdatedAt` (and the
stored subdomain, as an FQDN, falling back to the derived one only when
the stored field is empty), and issues no DNS call, no store put, and
never reaches the rate limiter's `Check` or `UpdateCounters`, so the
stored mapping is untouched. -/
theorem Update_unchanged_noop (env : handlers.UpdateEnv) (now : Time)
    (req : domain.UpdateRequest) (m : domain.IPMapping)
    (hbody : env.body = some req) (hval : req.Validate = none)
    (hauth : env.authOk = true) (hget : env.getResult = .found m)
    (hip : handlers.extractClientIP env.hXFF env.hxff env.sourceIP ≠ "")
    (heq : m.IP = handlers.extractClientIP env.hXFF env.hxff env.sourceIP) :
    handlers.Update env now =
      (.ok ⟨m.OwnerID, m.LocationName, m.IP,
          dns.FormatFQDN (if m.Subdomain != "" then m.Subdomain
            else dns.GenerateSubdomain req.OwnerID req.Location),
          false, m.UpdatedAt⟩,
        handlers.noEffects) := by
  simp only [handlers.Update, hbody, hval, hauth, hget, Bool.not_true,
    Bool.false_eq_true, if_false, if_neg hip, ← heq, bne_self_eq_false]
  rw [if_neg (fun h => hip (heq.symm.trans h))]

/-- Witness for C1: a concrete repeated update with the stored IP
returns the stored state, changed false, with empty effects. -/
theorem Update_unchanged_noop_witness :
    handlers.Update
        ⟨some ⟨"o", "l", ""⟩, "1.2.3.4", "", "", true,
          .found ⟨"o", "l", "1.2.3.4", "sub", 7, 3, 1⟩, true, true⟩ 42
      = (.ok ⟨"o", "l", "1.2.3.4", "sub.grocky.net", false, 7⟩,
          handlers.noEffects) := by
  have h := Update_unchanged_noop
    ⟨some ⟨"o", "l", ""⟩, "1.2.3.4", "", "", true,
      .found ⟨"o", "l", "1.2.3.4", "sub", 7, 3, 1⟩, true, true⟩ 42
    ⟨"o", "l", ""⟩ ⟨"o", "l", "1.2.3.4", "sub", 7, 3, 1⟩ rfl rfl rfl rfl
    (by decide) (by decide)
  rw [h]
  rfl

/-- C3: every early-exit path of Update — unparsable body, failed
validation, failed authentication, missing client IP, store read error,
rate-limit denial, DNS upsert failure — issues no store put; a
rate-limit denial additionally issues no DNS call and surfaces the
rate limiter's retry delay in seconds, and any run with a failing DNS
service never puts (the store keeps the old IP). -/
theorem Update_no_write_on_failure (env : handlers.UpdateEnv) (now : Time) :
    (env.body = none →
      handlers.Update env now
        = (.error ⟨400, "invalid request body", 0⟩, handlers.noEffects))
    ∧ (∀ req msg, env.body = some req → req.Validate = some msg →
      handlers.Update env now = (.error ⟨400, msg, 0⟩, handlers.noEffects))
    ∧ (∀ req, env.body = some req → req.Validate = none → env.authOk = false →
      handlers.Update env now = (.error ⟨401, "unauthorized", 0⟩, handlers.noEffects))
    ∧ (∀ req, env.body = some req → req.Validate = none → env.authOk = true →
      handlers.extractClientIP env.hXFF env.hxff env.sourceIP = "" →
      handlers.Update env now
        = (.error ⟨400, "could not determine client IP", 0⟩, handlers.noEffects))
    ∧ (∀ req, env.body = some req → req.Validate = none → env.authOk = true →
      handlers.extractClientIP env.hXFF env.hxff env.sourceIP ≠ "" →
      env.getResult = .err →
      handlers.Update env now
        = (.error ⟨500, "failed to get mapping", 0⟩, handlers.noEffects))
    ∧ (∀ req m, env.body = some req → req.Validate = none → env.authOk = true →
      handlers.extractClientIP env.hXFF env.hxff env.sourceIP ≠ "" →
      env.getResult = .found m →
      m.IP ≠ handlers.extractClientIP env.hXFF env.hxff env.sourceIP →
      (ratelimit.Check (some m) now).Allowed = false →
      handlers.Update env now
        = (.error ⟨429, "rate limit exceeded: maximum 2 IP changes per hour",
            (ratelimit.Check (some m) now).RetryAfter⟩,
          ⟨[], [], true, false⟩))
    ∧ (∀ req m, env.body = some req → req.Validate = none → env.authOk = true →
      handlers.extractClientIP env.hXFF env.hxff env.sourceIP ≠ "" →
      env.getResult = .found m →
      m.IP ≠ handlers.extractClientIP env.hXFF env.hxff env.sourceIP →
      (ratelimit.Check (some m) now).Allowed = true → env.dnsOk = false →
      handlers.Update env now
        = (.error ⟨500, "failed to update DNS record", 0⟩,
          ⟨[(if m.Subdomain != "" then m.Subdomain
              else dns.GenerateSubdomain req.OwnerID req.Location,
            handlers.extractClientIP env.hXFF env.hxff env.sourceIP)], [], true, false⟩))
    ∧ (env.dnsOk = false → (handlers.Update env now).2.puts = []) := by
  refine ⟨?_, ?_, ?_, ?_, ?_, ?_, ?_, ?_⟩
  · intro h
    simp [handlers.Update, h]
  · intro req msg hb hv
    simp [handlers.Update, hb, hv]
  · intro req hb hv ha
    simp [handlers.Update, hb, hv, ha]
  · intro req hb hv ha hip
    simp [handlers.Update, hb, hv, ha, hip]
  · intro req hb hv ha hip hget
    simp [handlers.Update, hb, hv, ha, hip, hget]
  · intro req m hb hv ha hip hget hne hrl
    have hb' : (m.IP != handlers.extractClientIP env.hXFF env.hxff env.sourceIP)
        = true := by
      simp [bne_iff_ne, hne]
    simp [handlers.Update, hb, hv, ha, hip, hget, hb', hrl]
  · intro req m hb hv ha hip hget hne hrl hdns
    have hb' : (m.IP != handlers.extractClientIP env.hXFF env.hxff env.sourceIP)
        = true := by
      simp [bne_iff_ne, hne]
    simp [handlers.Update, hb, hv, ha, hip, hget, hb', hrl, hdns]
  · intro hdns
    simp only [handlers.Update, hdns]
    repeat' split
    all_goals simp_all [handlers.noEffects]

/-- Witness for C3: a concrete rate-limited update (2 changes already in
hour 0, new IP at second 200) is rejected with retry 3400 s, no DNS
call and no put. -/
theorem Update_no_write_on_failure_witness :
    handlers.Update
        ⟨some ⟨"o", "l", ""⟩, "5.6.7.8", "", "", true,
          .found ⟨"o", "l", "1.2.3.4", "sub", 100, 100, 2⟩, true, true⟩ 200
      = (.error ⟨429, "rate limit exceeded: maximum 2 IP changes per hour", 3400⟩,
          ⟨[], [], true, false⟩) := by
  have h := (Update_no_write_on_failure
      ⟨some ⟨"o", "l", ""⟩, "5.6.7.8", "", "", true,
        .found ⟨"o", "l", "1.2.3.4", "sub", 100, 100, 2⟩, true, true⟩
      200).2.2.2.2.2.1
    ⟨"o", "l", ""⟩ ⟨"o", "l", "1.2.3.4", "sub", 100, 100, 2⟩ rfl rfl rfl
    (by decide) rfl (by decide) (by decide)
  rw [h]
  rfl

/-- `UpdateCounters` mutates only `HourlyChangeCount` and
`LastIPChangeAt`. -/
theorem UpdateCounters_fields (m : domain.IPMapping) (now : Time) :
    (ratelimit.UpdateCounters m now).OwnerID = m.OwnerID
    ∧ (ratelimit.UpdateCounters m now).LocationName = m.LocationName
    ∧ (ratelimit.UpdateCounters m now).IP = m.IP
    ∧ (ratelimit.UpdateCounters m now).Subdomain = m.Subdomain
    ∧ (ratelimit.UpdateCounters m now).UpdatedAt = m.UpdatedAt
    ∧ (ratelimit.UpdateCounters m now).LastIPChangeAt = now := by
  simp only [ratelimit.UpdateCounters]
  split <;> simp

/-- Every mapping Update puts, when the store holds `m`, keeps `m`'s
subdomain (ordinary updates never overwrite it for existing mappings). -/
theorem Update_step_puts_subdomain (req : domain.UpdateRequest)
    (m : domain.IPMapping) (s : handlers.StepInput) :
    ∀ pm ∈ (handlers.Update ⟨some req, s.hXFF, s.hxff, s.sourceIP, s.authOk,
        .found m, s.dnsOk, s.putOk⟩ s.now).2.puts,
      pm.Subdomain = m.Subdomain := by
  intro pm hpm
  simp only [handlers.Update] at hpm
  repeat' split at hpm
  all_goals simp_all [handlers.noEffects, ratelimit.UpdateCounters]
  all_goals subst hpm
  all_goals split <;> rfl

/-- Every DNS upsert Update issues, when the store holds `m` with a
non-empty subdomain, uses `m`'s subdomain. -/
theorem Update_step_dns_subdomain (req : domain.UpdateRequest)
    (m : domain.IPMapping) (s : handlers.StepInput) (hm : m.Subdomain ≠ "") :
    ∀ p ∈ (handlers.Update ⟨some req, s.hXFF, s.hxff, s.sourceIP, s.authOk,
        .found m, s.dnsOk, s.putOk⟩ s.now).2.dnsUpserts,
      p.1 = m.Subdomain := by
  have hsub : (m.Subdomain != "") = true := by simp [bne_iff_ne, hm]
  intro p hp
  simp only [handlers.Update, hsub] at hp
  repeat' split at hp
  all_goals simp_all [handlers.noEffects]

/-- Every success response of Update, when the store holds `m` with a
non-empty subdomain, reports `m`'s subdomain as an FQDN. -/
theorem Update_step_ok_subdomain (req : domain.UpdateRequest)
    (m : domain.IPMapping) (s : handlers.StepInput) (hm : m.Subdomain ≠ "") :
    ∀ b, (handlers.Update ⟨some req, s.hXFF, s.hxff, s.sourceIP, s.authOk,
        .found m, s.dnsOk, s.putOk⟩ s.now).1 = .ok b →
      b.Subdomain = dns.FormatFQDN m.Subdomain := by
  have hsub : (m.Subdomain != "") = true := by simp [bne_iff_ne, hm]
  intro b hb
  simp only [handlers.Update, hsub] at hb
  repeat' split at hb
  all_goals simp_all [handlers.noEffects, ratelimit.UpdateCounters]
  all_goals subst hb
  all_goals rfl

/-- One request against a stored mapping with a non-empty subdomain
leaves the stored subdomain unchanged. -/
theorem runUpdate_subdomain (req : domain.UpdateRequest) (m : domain.IPMapping)
    (s : handlers.StepInput) :
    (handlers.runUpdate req m s).Subdomain = m.Subdomain := by
  have hputs := Update_step_puts_subdomain req m s
  simp only [handlers.runUpdate]
  split
  case h_1 r eff heq =>
    rw [heq] at hputs
    split
    case h_1 p hp =>
      exact hputs p (by simp [hp])
    case h_2 => rfl
  case h_2 => rfl

/-- Iterating Update requests never changes the stored subdomain. -/
theorem runUpdates_subdomain (req : domain.UpdateRequest) (m : domain.IPMapping)
    (steps : List handlers.StepInput) :
    (handlers.runUpdates req m steps).Subdomain = m.Subdomain := by
  induction steps generalizing m with
  | nil => rfl
  | cons s rest ih =>
    simp only [handlers.runUpdates]
    rw [ih, runUpdate_subdomain]

/-- C4: for a stored mapping with a non-empty subdomain, any number of
successive Update requests (accepted or not) leaves the stored subdomain
unchanged, and each single request puts only mappings carrying the
stored subdomain, upserts DNS only under the stored subdomain and
reports it (as an FQDN) in every success response. -/
theorem Update_subdomain_stable (req : domain.UpdateRequest)
    (m : domain.IPMapping) (steps : List handlers.StepInput)
    (hm : m.Subdomain ≠ "") :
    (handlers.runUpdates req m steps).Subdomain = m.Subdomain
    ∧ ∀ s : handlers.StepInput,
      (∀ pm ∈ (handlers.Update ⟨some req, s.hXFF, s.hxff, s.sourceIP, s.authOk,
          .found m, s.dnsOk, s.putOk⟩ s.now).2.puts,
        pm.Subdomain = m.Subdomain)
      ∧ (∀ p ∈ (handlers.Update ⟨some req, s.hXFF, s.hxff, s.sourceIP, s.authOk,
          .found m, s.dnsOk, s.putOk⟩ s.now).2.dnsUpserts,
        p.1 = m.Subdomain)
      ∧ (∀ b, (handlers.Update ⟨some req, s.hXFF, s.hxff, s.sourceIP, s.authOk,
          .found m, s.dnsOk, s.putOk⟩ s.now).1 = .ok b →
        b.Subdomain = dns.FormatFQDN m.Subdomain) :=
  ⟨runUpdates_subdomain req m steps, fun s =>
    ⟨Update_step_puts_subdomain req m s,
     Update_step_dns_subdomain req m s hm,
     Update_step_ok_subdomain req m s hm⟩⟩

/-- Witness for C4: two successive accepted IP changes leave the custom
subdomain in place. -/
theorem Update_subdomain_stable_witness :
    (handlers.runUpdates ⟨"o", "l", ""⟩ ⟨"o", "l", "1.2.3.4", "custom", 0, 0, 0⟩
        [⟨"2.2.2.2", "", "", true, true, true, 10⟩,
         ⟨"3.3.3.3", "", "", true, true, true, 20⟩]).Subdomain = "custom" := by
  have h := (Update_subdomain_stable ⟨"o", "l", ""⟩
    ⟨"o", "l", "1.2.3.4", "custom", 0, 0, 0⟩
    [⟨"2.2.2.2", "", "", true, true, true, 10⟩,
     ⟨"3.3.3.3", "", "", true, true, true, 20⟩] (by decide)).1
  simpa using h

/-- C10: for an existing mapping whose stored subdomain is empty, an
accepted IP change derives the hash subdomain for the DNS upsert and the
response, but the mapping written back still has the empty subdomain. -/
theorem Update_empty_subdomain_not_persisted (env : handlers.UpdateEnv)
    (now : Time) (req : domain.UpdateRequest) (m : domain.IPMapping)
    (hbody : env.body = some req) (hval : req.Validate = none)
    (hauth : env.authOk = true) (hget : env.getResult = .found m)
    (hsub : m.Subdomain = "")
    (hip : handlers.extractClientIP env.hXFF env.hxff env.sourceIP ≠ "")
    (hne : m.IP ≠ handlers.extractClientIP env.hXFF env.hxff env.sourceIP)
    (hrl : (ratelimit.Check (some m) now).Allowed = true)
    (hdns : env.dnsOk = true) (hput : env.putOk = true) :
    handlers.Update env now =
      (.ok ⟨m.OwnerID, m.LocationName,
          handlers.extractClientIP env.hXFF env.hxff env.sourceIP,
          dns.FormatFQDN (dns.GenerateSubdomain req.OwnerID req.Location),
          true, now⟩,
        ⟨[(dns.GenerateSubdomain req.OwnerID req.Location,
            handlers.extractClientIP env.hXFF env.hxff env.sourceIP)],
          [ratelimit.UpdateCounters { m with
            IP := handlers.extractClientIP env.hXFF env.hxff env.sourceIP,
            UpdatedAt := now } now], true, true⟩)
    ∧ (ratelimit.UpdateCounters { m with
        IP := handlers.extractClientIP env.hXFF env.hxff env.sourceIP,
        UpdatedAt := now } now).Subdomain = "" := by
  have hsubb : (m.Subdomain != "") = false := by simp [hsub]
  have hbne : (m.IP != handlers.extractClientIP env.hXFF env.hxff env.sourceIP)
      = true := by simp [bne_iff_ne, hne]
  obtain ⟨ho, hl, hip3, hs3, hu3, _⟩ := UpdateCounters_fields { m with
    IP := handlers.extractClientIP env.hXFF env.hxff env.sourceIP,
    UpdatedAt := now } now
  constructor
  · simp only [handlers.Update, hbody, hval, hauth, hget, hsubb, hbne, hrl, hdns,
      hput, Bool.not_true, Bool.not_false, Bool.false_eq_true, if_false, if_true,
      if_neg hip, Option.isNone_some]
    simp [ho, hl, hip3, hu3]
  · rw [hs3]
    exact hsub

/-- Witness for C10: a stored mapping with empty subdomain takes a new
IP; DNS and the response use the derived label `0a8678a9` but the stored
subdomain stays empty. -/
theorem Update_empty_subdomain_not_persisted_witness :
    handlers.Update
        ⟨some ⟨"o", "l", ""⟩, "5.6.7.8", "", "", true,
          .found ⟨"o", "l", "1.2.3.4", "", 0, 0, 0⟩, true, true⟩ 10
      = (.ok ⟨"o", "l", "5.6.7.8", "0a8678a9.grocky.net", true, 10⟩,
          ⟨[("0a8678a9", "5.6.7.8")], [⟨"o", "l", "5.6.7.8", "", 10, 10, 1⟩],
            true, true⟩) := by
  have h := Update_empty_subdomain_not_persisted
    ⟨some ⟨"o", "l", ""⟩, "5.6.7.8", "", "", true,
      .found ⟨"o", "l", "1.2.3.4", "", 0, 0, 0⟩, true, true⟩ 10
    ⟨"o", "l", ""⟩ ⟨"o", "l", "1.2.3.4", "", 0, 0, 0⟩
    rfl rfl rfl rfl rfl (by decide) (by decide) rfl rfl rfl
  rw [h.1]
  rfl

/-- Counterexample to C5: the body supplies ip `1.2.3.4`, yet the
handler uses the forwarded-address value `5.6.7.8` as the candidate —
the client-supplied value is never preferred. -/
theorem Update_body_ip_ignored_cex :
    (handlers.Update ⟨some ⟨"o", "l", "1.2.3.4"⟩, "5.6.7.8", "", "9.9.9.9", true,
        .notFound, true, true⟩ 0).1
      = .ok ⟨"o", "l", "5.6.7.8", "0a8678a9.grocky.net", true, 0⟩
    ∧ (handlers.Update ⟨some ⟨"o", "l", "1.2.3.4"⟩, "5.6.7.8", "", "9.9.9.9", true,
        .notFound, true, true⟩ 0).2.dnsUpserts = [("0a8678a9", "5.6.7.8")]
    ∧ ("5.6.7.8" : String) ≠ "1.2.3.4" := by
  refine ⟨by rfl, by rfl, by decide⟩

/-- C5 (amended): Update ignores any body-supplied `ip` entirely; the
candidate is always the forwarded-address header's first comma-separated
entry trimmed of whitespace (either header case), else the direct source
address; an empty candidate fails with the missing-IP error. -/
theorem Update_candidate_ip_transport_only (env : handlers.UpdateEnv) (now : Time)
    (req : domain.UpdateRequest) (v w : String) :
    handlers.Update { env with body := some { req with IP := v } } now
      = handlers.Update { env with body := some { req with IP := w } } now
    ∧ (∀ hU hL src : String, hU ≠ "" →
        handlers.extractClientIP hU hL src
          = handlers.TrimSpace (String.mk (handlers.firstCommaSegment hU.data)))
    ∧ (∀ hL src : String, hL ≠ "" →
        handlers.extractClientIP "" hL src
          = handlers.TrimSpace (String.mk (handlers.firstCommaSegment hL.data)))
    ∧ (∀ src : String, handlers.extractClientIP "" "" src
        = if src ≠ "" then src else "")
    ∧ (env.body = some req → req.Validate = none → env.authOk = true →
        handlers.extractClientIP env.hXFF env.hxff env.sourceIP = "" →
        handlers.Update env now
          = (.error ⟨400, "could not determine client IP", 0⟩, handlers.noEffects)) := by
  refine ⟨rfl, ?_, ?_, ?_, ?_⟩
  · intro hU hL src h
    simp [handlers.extractClientIP, h]
  · intro hL src h
    simp [handlers.extractClientIP, h]
  · intro src
    simp [handlers.extractClientIP]
  · intro hb hv ha hip
    simp [handlers.Update, hb, hv, ha, hip]

/-- Witness for C5 (amended): two requests differing only in the body ip
behave identically, and a padded multi-entry forwarded header resolves
to its first entry trimmed. -/
theorem Update_candidate_ip_transport_only_witness :
    handlers.Update ⟨some ⟨"o", "l", "1.2.3.4"⟩, "5.6.7.8", "", "", true,
        .notFound, false, true⟩ 0
      = handlers.Update ⟨some ⟨"o", "l", "9.9.9.9"⟩, "5.6.7.8", "", "", true,
        .notFound, false, true⟩ 0
    ∧ handlers.extractClientIP " 7.7.7.7 , 8.8.8.8" "" "6.6.6.6" = "7.7.7.7" := by
  have h := Update_candidate_ip_transport_only
    ⟨some ⟨"o", "l", ""⟩, "5.6.7.8", "", "", true, .notFound, false, true⟩ 0
    ⟨"o", "l", ""⟩ "1.2.3.4" "9.9.9.9"
  refine ⟨h.1, ?_⟩
  rw [h.2.1 " 7.7.7.7 , 8.8.8.8" "" "6.6.6.6" (by decide)]
  rfl

/-- Unfolding `countOk` at a successful head. -/
theorem countOk_cons_ok (v w : String) (rest : List (Except String String)) :
    pubip.countOk v (.ok w :: rest)
      = (if w = v then 1 else 0) + pubip.countOk v rest := rfl

/-- Unfolding `countOk` at an error head. -/
theorem countOk_cons_err (v e : String) (rest : List (Except String String)) :
    pubip.countOk v (.error e :: rest) = pubip.countOk v rest := rfl

/-- `countOk` distributes over append. -/
theorem countOk_append (v : String) (a b : List (Except String String)) :
    pubip.countOk v (a ++ b) = pubip.countOk v a + pubip.countOk v b := by
  induction a with
  | nil => simp [pubip.countOk]
  | cons r rest ih =>
    cases r with
    | error e => simp [countOk_cons_err, ih]
    | ok w => simp [countOk_cons_ok, ih]; omega

/-- Unfolding the collection loop at a successful head. -/
theorem collect_cons_ok (tally : String → Nat) (le : Option String) (ip : String)
    (rest : List (Except String String)) :
    pubip.collect tally le (.ok ip :: rest)
      = (if pubip.consensusRequired ≤ tally ip + 1 then .ok ip
        else pubip.collect (fun s => if s = ip then tally s + 1 else tally s)
          le rest) := by
  simp [pubip.collect]

/-- If the collection loop returns `v`, the input splits into a prefix in
which every value (counting the incoming tally) has been seen at most
once and `v` exactly once, followed by the `v` completing the quorum. -/
theorem collect_ok_prefix (rest : List (Except String String)) :
    ∀ (tally : String → Nat) (le : Option String) (v : String),
    (∀ s, tally s ≤ 1) →
    pubip.collect tally le rest = .ok v →
    ∃ p q, rest = p ++ .ok v :: q ∧ pubip.countOk v p + tally v = 1
      ∧ ∀ w, pubip.countOk w p + tally w ≤ 1 := by
  induction rest with
  | nil =>
    intro tally le v hinv h
    simp [pubip.collect] at h
  | cons r rest ih =>
    intro tally le v hinv h
    cases r with
    | error e =>
      simp only [pubip.collect] at h
      obtain ⟨p, q, hpq, hcount, hbound⟩ := ih tally (some e) v hinv h
      refine ⟨.error e :: p, q, by rw [hpq, List.cons_append], ?_, ?_⟩
      · rw [countOk_cons_err]
        exact hcount
      · intro w
        rw [countOk_cons_err]
        exact hbound w
    | ok ip =>
      rw [collect_cons_ok] at h
      by_cases hq : pubip.consensusRequired ≤ tally ip + 1
      · rw [if_pos hq] at h
        injection h with hh
        simp only [pubip.consensusRequired] at hq
        have h1 : tally ip = 1 := le_antisymm (hinv ip) (by omega)
        refine ⟨[], rest, ?_, ?_, ?_⟩
        · rw [hh]
          rfl
        · show 0 + tally v = 1
          rw [← hh, h1]
        · intro w
          show 0 + tally w ≤ 1
          simpa using hinv w
      · rw [if_neg hq] at h
        simp only [pubip.consensusRequired] at hq
        have hinv' : ∀ s, (if s = ip then tally s + 1 else tally s) ≤ 1 := by
          intro s
          by_cases hs : s = ip
          · rw [if_pos hs, hs]
            omega
          · rw [if_neg hs]
            exact hinv s
        obtain ⟨p, q, hpq, hcount, hbound⟩ := ih _ le v hinv' h
        refine ⟨.ok ip :: p, q, by rw [hpq, List.cons_append], ?_, ?_⟩
        · rw [countOk_cons_ok]
          by_cases hv : v = ip
          · rw [if_pos hv] at hcount
            rw [if_pos hv.symm]
            omega
          · rw [if_neg hv] at hcount
            rw [if_neg (fun hh => hv hh.symm)]
            omega
        · intro w
          have hb := hbound w
          rw [countOk_cons_ok]
          by_cases hw : w = ip
          · rw [if_pos hw] at hb
            rw [if_pos hw.symm]
            omega
          · rw [if_neg hw] at hb
            rw [if_neg (fun hh => hw hh.symm)]
            omega

/-- C6: `queryWithConsensus` returns `v` only when at least two
successful results equal `v`; the quorum completes at the first point in
arrival order where any value reaches two, and a successful result only
arises from an HTTP 200 whose body, trimmed of whitespace, is the
returned string. -/
theorem queryWithConsensus_quorum (rs : List (Except String String)) (v : String)
    (h : pubip.queryWithConsensus rs = .ok v) :
    2 ≤ pubip.countOk v rs
    ∧ (∃ p q, rs = p ++ .ok v :: q ∧ pubip.countOk v p = 1
        ∧ ∀ w, pubip.countOk w p ≤ 1)
    ∧ (∀ url o w, pubip.requestExternalIP url o = .ok w ↔
        ∃ b, o = .resp 200 b ∧ w = handlers.TrimSpace b) := by
  have hc : pubip.collect (fun _ => 0) none rs = .ok v := by
    unfold pubip.queryWithConsensus at h
    cases hcc : pubip.collect (fun _ => 0) none rs with
    | ok ip =>
      rw [hcc] at h
      simpa using h
    | error le =>
      rw [hcc] at h
      cases le <;> simp at h
  obtain ⟨p, q, hpq, hcount, hbound⟩ :=
    collect_ok_prefix rs (fun _ => 0) none v (fun _ => Nat.zero_le 1) hc
  have hcount' : pubip.countOk v p = 1 := by simpa using hcount
  refine ⟨?_, ⟨p, q, hpq, hcount', fun w => by simpa using hbound w⟩, ?_⟩
  · rw [hpq, countOk_append, countOk_cons_ok, if_pos rfl, hcount']
    omega
  · intro url o w
    cases o with
    | transportErr msg => simp [pubip.requestExternalIP]
    | resp status body =>
      by_cases hs : status = 200
      · subst hs
        simp [pubip.requestExternalIP]
        constructor
        · intro hh
          exact hh.symm
        · intro hh
          exact hh.symm
      · simp [pubip.requestExternalIP, hs]

/-- Witness for C6: with arrivals `ok A, error, ok B, ok A` the resolver
returns `A`, on which two successful authorities agree. -/
theorem queryWithConsensus_quorum_witness :
    2 ≤ pubip.countOk "198.51.100.4"
      [.ok "198.51.100.4", .error "x", .ok "203.0.113.9", .ok "198.51.100.4"] :=
  (queryWithConsensus_quorum
    [.ok "198.51.100.4", .error "x", .ok "203.0.113.9", .ok "198.51.100.4"]
    "198.51.100.4" rfl).1

/-- If no value ever reaches the quorum, the collection loop ends with
the last error seen (starting from the incoming one). -/
theorem collect_no_quorum (rest : List (Except String String)) :
    ∀ (tally : String → Nat) (le : Option String),
    (∀ v, pubip.countOk v rest + tally v < 2) →
    pubip.collect tally le rest = .error (pubip.lastErrorFrom le rest) := by
  induction rest with
  | nil =>
    intro tally le _
    rfl
  | cons r rest ih =>
    intro tally le h
    cases r with
    | error e =>
      show pubip.collect tally (some e) rest
        = .error (pubip.lastErrorFrom (some e) rest)
      exact ih tally (some e) (fun v => by
        have hv := h v
        rw [countOk_cons_err] at hv
        exact hv)
    | ok ip =>
      have hip := h ip
      rw [countOk_cons_ok, if_pos rfl] at hip
      rw [collect_cons_ok]
      rw [if_neg (by simp only [pubip.consensusRequired]; omega)]
      show pubip.collect _ le rest = .error (pubip.lastErrorFrom le rest)
      refine ih _ le (fun v => ?_)
      have hv := h v
      rw [countOk_cons_ok] at hv
      by_cases hvi : v = ip
      · rw [if_pos hvi]
        rw [if_pos hvi.symm] at hv
        omega
      · rw [if_neg hvi]
        rw [if_neg (fun hh => hvi hh.symm)] at hv
        omega

/-- Counterexample to C7: one authority errors with `boom`, another
reports an IP once; no quorum is reached, yet the resolver fails with
the authority error, not `ErrNoConsensus`. -/
theorem queryWithConsensus_lasterr_cex :
    pubip.queryWithConsensus [.error "boom", .ok "203.0.113.7"]
      = .error (.authorityErr "boom")
    ∧ pubip.PubipError.authorityErr "boom" ≠ .noConsensus :=
  ⟨rfl, by decide⟩

/-- C7 (amended): whenever no value reaches the quorum,
`queryWithConsensus` fails — with `ErrNoConsensus` exactly when no
authority-level error was received, and otherwise with the last
authority error in arrival order. -/
theorem queryWithConsensus_no_quorum (rs : List (Except String String))
    (h : ∀ v, pubip.countOk v rs < 2) :
    pubip.queryWithConsensus rs
      = .error (match pubip.lastErrorFrom none rs with
        | some e => .authorityErr e
        | none => .noConsensus) := by
  have hc := collect_no_quorum rs (fun _ => 0) none (fun v => by
    simpa using h v)
  unfold pubip.queryWithConsensus
  rw [hc]
  cases pubip.lastErrorFrom none rs <;> rfl

/-- Witness for C7 (amended): a timeout error then a single report yield
the authority error; two lone reports with no errors yield
`ErrNoConsensus`. -/
theorem queryWithConsensus_no_quorum_witness :
    pubip.queryWithConsensus [.error "timeout", .ok "192.0.2.1"]
      = .error (.authorityErr "timeout")
    ∧ pubip.queryWithConsensus [.ok "192.0.2.1", .ok "192.0.2.2"]
      = .error .noConsensus := by
  constructor
  · have h := queryWithConsensus_no_quorum [.error "timeout", .ok "192.0.2.1"]
      (fun v => by
        rw [countOk_cons_err, countOk_cons_ok]
        split <;> simp [pubip.countOk])
    simpa using h
  · have h := queryWithConsensus_no_quorum [.ok "192.0.2.1", .ok "192.0.2.2"]
      (fun v => by
        rw [countOk_cons_ok, countOk_cons_ok]
        by_cases h1 : ("192.0.2.1" : String) = v
        · have h2 : ¬ ("192.0.2.2" : String) = v := fun hh => by
            rw [← h1] at hh
            exact absurd hh (by decide)
          rw [if_pos h1, if_neg h2]
          simp [pubip.countOk]
        · rw [if_neg h1]
          split <;> simp [pubip.countOk])
    simpa using h

/-- C8: if the DynamoDB subdomain update (phase B) fails after the
Route53 change batch (phase A) succeeded, `ChangeSubdomain` issues
exactly one compensating reverse batch — delete the new record, recreate
the old one with the same IP — and returns the original store error
(wrapped), regardless of whether the compensation itself succeeds; the
compensation is never retried (the trace holds exactly two batches). -/
theorem ChangeSubdomain_compensates (env : admin.MigEnv)
    (input : admin.ChangeSubdomainInput) (r : admin.MappingRecord) (e : String)
    (hget : admin.getMapping env.getItem input.OwnerID input.Location = .ok r)
    (hr53 : env.r53First = none) (hdyn : env.dynErr = some e) :
    admin.ChangeSubdomain env input =
      (.error ("failed to update DynamoDB: " ++ e),
        ⟨[admin.mkBatch (if r.Subdomain = ""
            then dns.GenerateSubdomain input.OwnerID input.Location
            else r.Subdomain) input.NewSubdomain r.IP,
          admin.mkBatch input.NewSubdomain (if r.Subdomain = ""
            then dns.GenerateSubdomain input.OwnerID input.Location
            else r.Subdomain) r.IP],
         [(input.OwnerID, input.Location, input.NewSubdomain)]⟩) := by
  simp only [admin.ChangeSubdomain, hget, hr53, hdyn]

/-- Witness for C8: with a stored record `(oldsub, 1.2.3.4)`, a
successful phase A and a failing store update, the operator issues the
forward batch and then the exact reverse batch and surfaces the store
error, even though the compensation call itself also fails. -/
theorem ChangeSubdomain_compensates_witness :
    admin.ChangeSubdomain ⟨.ok (some ⟨"oldsub", "1.2.3.4"⟩), none, some "r53down",
        some "boom"⟩ ⟨"o", "l", "newsub"⟩
      = (.error "failed to update DynamoDB: boom",
        ⟨[⟨"oldsub.grocky.net", "newsub.grocky.net", "1.2.3.4"⟩,
          ⟨"newsub.grocky.net", "oldsub.grocky.net", "1.2.3.4"⟩],
         [("o", "l", "newsub")]⟩) := by
  have h := ChangeSubdomain_compensates
    ⟨.ok (some ⟨"oldsub", "1.2.3.4"⟩), none, some "r53down", some "boom"⟩
    ⟨"o", "l", "newsub"⟩ ⟨"oldsub", "1.2.3.4"⟩ "boom" rfl rfl rfl
  rw [h]
  rfl

/-- The hex digest always has 32 characters. -/
theorem digestHexChars_length (msg : List Nat) :
    (md5.digestHexChars msg).length = 32 := by
  simp [md5.digestHexChars, md5.wordHexLE, md5.byteHexChars]

/-- C9: `GenerateSubdomain` is a pure total function returning the first
8 characters of the lowercase hex MD5 digest of "ownerId-location"; it
is deterministic (equal inputs give equal labels), always 8 characters
long, and the labels for (acme,home), (acme,office) and (other,home)
are pairwise distinct. -/
theorem GenerateSubdomain_spec :
    (∀ o l : String, dns.GenerateSubdomain o l
      = String.mk ((md5.digestHexChars (md5.strBytes (o ++ "-" ++ l))).take 8))
    ∧ (∀ o l o' l' : String, o = o' → l = l' →
        dns.GenerateSubdomain o l = dns.GenerateSubdomain o' l')
    ∧ (∀ o l : String, (dns.GenerateSubdomain o l).length = 8)
    ∧ dns.GenerateSubdomain "acme" "home" = "a47763d1"
    ∧ dns.GenerateSubdomain "acme" "office" = "fc623497"
    ∧ dns.GenerateSubdomain "other" "home" = "3fde4476"
    ∧ dns.GenerateSubdomain "acme" "home" ≠ dns.GenerateSubdomain "acme" "office"
    ∧ dns.GenerateSubdomain "acme" "home" ≠ dns.GenerateSubdomain "other" "home"
    ∧ dns.GenerateSubdomain "acme" "office" ≠ dns.GenerateSubdomain "other" "home"
    := by
  refine ⟨fun o l => rfl, fun o l o' l' ho hl => by rw [ho, hl], ?_,
    by rfl, by rfl, by rfl, by decide, by decide, by decide⟩
  intro o l
  have h0 : (dns.GenerateSubdomain o l).length
      = ((md5.digestHexChars (md5.strBytes (o ++ "-" ++ l))).take 8).length := rfl
  rw [h0, List.length_take, digestHexChars_length]
  decide

/-- Witness for C9: determinism and the fixed label length at the
concrete pair (acme, home). -/
theorem GenerateSubdomain_spec_witness :
    dns.GenerateSubdomain "acme" "home" = dns.GenerateSubdomain "acme" "home"
    ∧ (dns.GenerateSubdomain "acme" "home").length = 8 :=
  ⟨GenerateSubdomain_spec.2.1 "acme" "home" "acme" "home" rfl rfl,
   GenerateSubdomain_spec.2.2.1 "acme" "home"⟩

end DDNS
